import Mathlib

/-!
# Verification of the websocket presence / fan-out layer (websocket.ts)

Shallow embedding of the connection registry and the socket event handlers
of `setupWebsocket`:

* `SocketUser`, `MessageData`, `TypingData`, `ReadReceiptData` mirror the
  TypeScript interfaces of the same names.
* `addUser`, `removeUser`, `getUser` mirror the three registry closures over
  the mutable `users : SocketUser[]` array; here the registry is passed and
  returned explicitly.
* Each `socket.on(...)` handler is embedded as a pure function from the
  current registry (and the event payload) to the list of emissions it
  performs; `io.to(sid).emit(...)` is an emission targeted at `some sid`,
  `io.emit(...)` a broadcast targeted at `none`.
* The authentication middleware (`io.use`) is embedded with its two external
  collaborators (`jwt.verify` and `User.findById`) as function parameters; a
  thrown verification error is `none`.
-/

namespace Websocket

/-- The TypeScript interface `SocketUser { userId, socketId }`. -/
structure SocketUser where
  userId : String
  socketId : String
  deriving DecidableEq, Repr

/-- The TypeScript interface `MessageData`. -/
structure MessageData where
  senderId : String
  receiverId : String
  chatId : String
  content : String
  deriving DecidableEq, Repr

/-- The TypeScript interface `TypingData`. -/
structure TypingData where
  chatId : String
  userId : String
  deriving DecidableEq, Repr

/-- The TypeScript interface `ReadReceiptData`. -/
structure ReadReceiptData where
  chatId : String
  userId : String
  messageIds : List String
  deriving DecidableEq, Repr

/-- `addUser`: `!users.some(u => u.userId === userId) && users.push({userId, socketId})`.
Appends the record iff no record with this `userId` is present. -/
def addUser (userId socketId : String) (users : List SocketUser) : List SocketUser :=
  if users.any (fun v => v.userId == userId) then users
  else users ++ [⟨userId, socketId⟩]

/-- `removeUser`: `users = users.filter(u => u.socketId !== socketId)`. -/
def removeUser (socketId : String) (users : List SocketUser) : List SocketUser :=
  users.filter (fun v => v.socketId != socketId)

/-- `getUser`: `users.find(u => u.userId === userId)`. -/
def getUser (userId : String) (users : List SocketUser) : Option SocketUser :=
  users.find? (fun v => v.userId == userId)

/-- Payload of an outbound `emit` call. -/
inductive EventPayload where
  | getUsers (roster : List SocketUser)
  | getMessage (senderId content chatId : String) (createdAt : Nat)
  | userTyping (chatId userId : String)
  | userStoppedTyping (chatId userId : String)
  | messagesRead (chatId userId : String) (messageIds : List String)
  deriving DecidableEq, Repr

/-- One outbound `emit`: `target = some sid` is `io.to(sid).emit(...)`,
`target = none` is the broadcast `io.emit(...)`. -/
structure Emission where
  target : Option String
  event : EventPayload
  deriving DecidableEq, Repr

/-- The `sendMessage` handler: looks the receiver up in the registry and, if
online, emits one `getMessage` to that socket; otherwise emits nothing.
`new Date()` is the `now` parameter. -/
def sendMessageHandler (users : List SocketUser) (d : MessageData) (now : Nat) :
    List Emission :=
  match getUser d.receiverId users with
  | some u => [⟨some u.socketId, .getMessage d.senderId d.content d.chatId now⟩]
  | none => []

/-- The `typing` handler: emits `userTyping` to every registered user whose
`userId` differs from the payload's. -/
def typingHandler (users : List SocketUser) (d : TypingData) : List Emission :=
  (users.filter (fun v => v.userId != d.userId)).map
    (fun p => ⟨some p.socketId, .userTyping d.chatId d.userId⟩)

/-- The `stopTyping` handler: same recipients as `typing`, payload
`userStoppedTyping`. -/
def stopTypingHandler (users : List SocketUser) (d : TypingData) : List Emission :=
  (users.filter (fun v => v.userId != d.userId)).map
    (fun p => ⟨some p.socketId, .userStoppedTyping d.chatId d.userId⟩)

/-- The `markAsRead` handler: emits `messagesRead` to every registered user
whose `userId` differs from the payload's. -/
def markAsReadHandler (users : List SocketUser) (d : ReadReceiptData) : List Emission :=
  (users.filter (fun v => v.userId != d.userId)).map
    (fun p => ⟨some p.socketId, .messagesRead d.chatId d.userId d.messageIds⟩)

/-- The per-connection context: `socket.id` and the identity stored into
`socket.data.user` by the authentication middleware. -/
structure SocketCtx where
  id : String
  user : String
  deriving DecidableEq, Repr

/-- An inbound socket event, as dispatched inside `io.on('connection', ...)`.
`addUser` carries only the userId (the handler pairs it with `socket.id`);
`disconnect` carries nothing. -/
inductive InEvent where
  | addUser (userId : String)
  | sendMessage (d : MessageData) (now : Nat)
  | typing (d : TypingData)
  | stopTyping (d : TypingData)
  | markAsRead (d : ReadReceiptData)
  | disconnect
  deriving DecidableEq, Repr

/-- One step of the connection's event loop: from the current registry and an
inbound event to the new registry and the emissions performed. -/
def handle (ctx : SocketCtx) (users : List SocketUser) : InEvent → List SocketUser × List Emission
  | .addUser u =>
      let users' := addUser u ctx.id users
      (users', [⟨none, .getUsers users'⟩])
  | .sendMessage d now => (users, sendMessageHandler users d now)
  | .typing d => (users, typingHandler users d)
  | .stopTyping d => (users, stopTypingHandler users d)
  | .markAsRead d => (users, markAsReadHandler users d)
  | .disconnect =>
      let users' := removeUser ctx.id users
      (users', [⟨none, .getUsers users'⟩])

/-- A registry mutation: the two operations that write the `users` array. -/
inductive RegOp where
  | add (userId socketId : String)
  | remove (socketId : String)
  deriving DecidableEq, Repr

/-- Apply one registry mutation. -/
def applyOp (users : List SocketUser) : RegOp → List SocketUser
  | .add u s => addUser u s users
  | .remove s => removeUser s users

/-- Run a sequence of registry mutations from the empty registry (the initial
`let users: SocketUser[] = []`). -/
def applyOps (ops : List RegOp) : List SocketUser :=
  ops.foldl applyOp []

/-- Registry states that the program can reach: results of some call
sequence of `addUser` / `removeUser` from the empty initial registry. -/
def Reachable (users : List SocketUser) : Prop :=
  ∃ ops : List RegOp, applyOps ops = users

/-- The userIds of a registry state. -/
def userIds (users : List SocketUser) : List String :=
  users.map SocketUser.userId

/-- The socketIds (connection ids) of a registry state. -/
def socketIds (users : List SocketUser) : List String :=
  users.map SocketUser.socketId

/-- The socketIds carried by the `add` calls of an operation sequence. -/
def addSocketIds (ops : List RegOp) : List String :=
  ops.filterMap (fun op => match op with | .add _ s => some s | .remove _ => none)

/-- The decoded JWT payload `{ id: string }` produced by `jwt.verify`. -/
structure DecodedToken where
  id : String
  deriving DecidableEq, Repr

/-- Outcome of the `io.use` authentication middleware: either the connection
is rejected via `next(new Error(reason))`, or it is admitted with the
resolved identity written into `socket.data.user`. -/
inductive AuthOutcome (U : Type) where
  | rejected (reason : String)
  | admitted (user : U)
  deriving DecidableEq, Repr

/-- The `io.use` authentication middleware. `verify` models `jwt.verify`
(returning `none` when it throws), `findById` models `User.findById`, and
`tok` models `socket.handshake.auth.token` (`none` when absent). The
TypeScript guard `if (!token)` also fires on the empty string, hence the
explicit empty-string branch. -/
def authMiddleware {U : Type} (verify : String → Option DecodedToken)
    (findById : String → Option U) (tok : Option String) : AuthOutcome U :=
  match tok with
  | none => .rejected "Authentication error: Token not provided"
  | some t =>
    if t = "" then .rejected "Authentication error: Token not provided"
    else
      match verify t with
      | none => .rejected "Authentication error: Invalid token"
      | some d =>
        match findById d.id with
        | none => .rejected "Authentication error: User not found"
        | some u => .admitted u

/-- A sample verifier for concrete evaluation: accepts exactly one token. -/
def demoVerify (t : String) : Option DecodedToken :=
  if t = "jwt-ok" then some ⟨"u1"⟩ else none

/-- A sample user store for concrete evaluation: knows exactly one user. -/
def demoFindById (i : String) : Option String :=
  if i = "u1" then some "alice" else none

/-! ## Registry helper lemmas -/

theorem userIds_addUser_nodup (u s : String) (l : List SocketUser)
    (h : (userIds l).Nodup) : (userIds (addUser u s l)).Nodup := by
  unfold addUser
  by_cases hc : l.any (fun v => v.userId == u)
  · simpa [hc]
  · simp only [hc, if_neg, Bool.not_eq_true, ite_false]
    simp only [List.any_eq_true, beq_iff_eq, not_exists, not_and] at hc
    have hu : u ∉ userIds l := by
      intro hmem
      rcases List.mem_map.mp hmem with ⟨v, hv, hvu⟩
      exact hc v hv hvu
    have heq : userIds (l ++ [⟨u, s⟩]) = userIds l ++ [u] := by simp [userIds]
    rw [heq, List.nodup_append]
    refine ⟨h, List.nodup_singleton u, fun a ha hb => ?_⟩
    have : a = u := by simpa using hb
    exact hu (this ▸ ha)

theorem userIds_removeUser_nodup (s : String) (l : List SocketUser)
    (h : (userIds l).Nodup) : (userIds (removeUser s l)).Nodup :=
  List.Nodup.sublist (List.Sublist.map _ (List.filter_sublist l)) h

theorem userIds_foldl_nodup (ops : List RegOp) :
    ∀ l : List SocketUser, (userIds l).Nodup → (userIds (ops.foldl applyOp l)).Nodup := by
  induction ops with
  | nil => intro l h; simpa using h
  | cons op rest ih =>
    intro l h
    simp only [List.foldl_cons]
    apply ih
    cases op with
    | add u s => exact userIds_addUser_nodup u s l h
    | remove s => exact userIds_removeUser_nodup s l h

theorem reachable_userIds_nodup {l : List SocketUser} (h : Reachable l) :
    (userIds l).Nodup := by
  obtain ⟨ops, rfl⟩ := h
  exact userIds_foldl_nodup ops [] (by simp [userIds])

theorem mem_userId_inj {l : List SocketUser} (h : (userIds l).Nodup)
    {r x : SocketUser} (hr : r ∈ l) (hx : x ∈ l) (he : r.userId = x.userId) : r = x :=
  List.inj_on_of_nodup_map h hr hx he

theorem getUser_mem : ∀ {l : List SocketUser}, (userIds l).Nodup →
    ∀ {r : SocketUser}, r ∈ l → getUser r.userId l = some r := by
  intro l
  induction l with
  | nil => intro _ r hr; cases hr
  | cons a t ih =>
    intro h r hr
    have hpair : a.userId ∉ userIds t ∧ (userIds t).Nodup := by
      have : (a.userId :: userIds t).Nodup := by simpa [userIds] using h
      exact List.nodup_cons.mp this
    rcases List.mem_cons.mp hr with rfl | hrt
    · simp [getUser]
    · have hne : (a.userId == r.userId) = false := by
        refine beq_eq_false_iff_ne.mpr ?_
        intro he
        exact hpair.1 (he ▸ (List.mem_map.mpr ⟨r, hrt, rfl⟩))
      have := ih hpair.2 hrt
      simpa [getUser, List.find?_cons, hne] using this

theorem getUser_eq_none {l : List SocketUser} {u : String}
    (h : ∀ r ∈ l, r.userId ≠ u) : getUser u l = none := by
  apply List.find?_eq_none.mpr
  intro r hr
  simpa using h r hr

theorem socketIds_foldl_nodup : ∀ (ops : List RegOp) (l : List SocketUser),
    (socketIds l ++ addSocketIds ops).Nodup → (socketIds (ops.foldl applyOp l)).Nodup := by
  intro ops
  induction ops with
  | nil => intro l h; simpa [addSocketIds] using h
  | cons op rest ih =>
    intro l h
    simp only [List.foldl_cons]
    apply ih
    cases op with
    | add u s =>
      have hadd : addSocketIds (RegOp.add u s :: rest) = s :: addSocketIds rest := by
        simp [addSocketIds]
      rw [hadd] at h
      show (socketIds (addUser u s l) ++ addSocketIds rest).Nodup
      unfold addUser
      by_cases hc : l.any (fun v => v.userId == u)
      · rw [if_pos hc]
        refine List.Nodup.sublist ?_ h
        exact List.Sublist.append (List.Sublist.refl _) (List.sublist_cons_self s _)
      · rw [if_neg hc]
        have heq : socketIds (l ++ [⟨u, s⟩]) = socketIds l ++ [s] := by simp [socketIds]
        rw [heq, List.append_assoc]
        simpa using h
    | remove s =>
      have hrem : addSocketIds (RegOp.remove s :: rest) = addSocketIds rest := by
        simp [addSocketIds]
      rw [hrem] at h
      show (socketIds (removeUser s l) ++ addSocketIds rest).Nodup
      refine List.Nodup.sublist ?_ h
      exact List.Sublist.append (List.Sublist.map _ (List.filter_sublist l)) (List.Sublist.refl _)

theorem map_filter_target_nil (g : SocketUser → Emission)
    (hg : ∀ v, (g v).target = some v.socketId) (x c : String) (t : List SocketUser)
    (hc : c ∉ socketIds t) :
    ((t.filter (fun v => v.userId != x)).map g).filter
      (fun e => e.target == some c) = [] := by
  apply List.filter_eq_nil_iff.mpr
  intro e he
  rcases List.mem_map.mp he with ⟨v, hv, rfl⟩
  have hvt : v ∈ t := (List.mem_filter.mp hv).1
  rw [hg v]
  simp only [beq_iff_eq, Option.some.injEq]
  intro heq
  exact hc (heq ▸ List.mem_map.mpr ⟨v, hvt, rfl⟩)

theorem broadcast_filter_target (g : SocketUser → Emission)
    (hg : ∀ v, (g v).target = some v.socketId) (x : String) :
    ∀ (l : List SocketUser), (socketIds l).Nodup → ∀ r ∈ l,
      ((l.filter (fun v => v.userId != x)).map g).filter
          (fun e => e.target == some r.socketId) =
        if r.userId = x then [] else [g r] := by
  intro l
  induction l with
  | nil => intro _ r hr; cases hr
  | cons a t ih =>
    intro h r hr
    have hpair : a.socketId ∉ socketIds t ∧ (socketIds t).Nodup := by
      have : (a.socketId :: socketIds t).Nodup := by simpa [socketIds] using h
      exact List.nodup_cons.mp this
    rcases List.mem_cons.mp hr with hra | hrt
    · rw [hra]
      by_cases hax : a.userId = x
      · rw [if_pos hax]
        have hpf : ((a :: t).filter (fun v => v.userId != x)) =
            t.filter (fun v => v.userId != x) := by
          simp [List.filter_cons, hax]
        rw [hpf]
        exact map_filter_target_nil g hg x a.socketId t hpair.1
      · rw [if_neg hax]
        have hpf : ((a :: t).filter (fun v => v.userId != x)) =
            a :: t.filter (fun v => v.userId != x) := by
          simp [List.filter_cons, hax]
        rw [hpf, List.map_cons, List.filter_cons]
        have hq : ((g a).target == some a.socketId) = true := by
          rw [hg a]; simp
        rw [hq]
        simp only [if_true]
        rw [map_filter_target_nil g hg x a.socketId t hpair.1]
    · have hne : a.socketId ≠ r.socketId := by
        intro he
        exact hpair.1 (he ▸ List.mem_map.mpr ⟨r, hrt, rfl⟩)
      have hstep := ih hpair.2 r hrt
      by_cases hax : a.userId = x
      · have hpf : ((a :: t).filter (fun v => v.userId != x)) =
            t.filter (fun v => v.userId != x) := by
          simp [List.filter_cons, hax]
        rw [hpf, hstep]
      · have hpf : ((a :: t).filter (fun v => v.userId != x)) =
            a :: t.filter (fun v => v.userId != x) := by
          simp [List.filter_cons, hax]
        rw [hpf, List.map_cons, List.filter_cons]
        have hq : ((g a).target == some r.socketId) = false := by
          rw [hg a]
          simp [hne]
        rw [hq]
        simp only [Bool.false_eq_true, if_false]
        rw [hstep]

/-! ## Claim theorems -/

/-- C1: for every reachable registry state, handling `sendMessage` with
receiver `d.receiverId` emits exactly one `getMessage` event, carrying
`{senderId, content, chatId, createdAt}`, to the connection of the
receiver's record and nothing else when the receiver is registered, and
emits nothing when the receiver is not registered. -/
theorem sendMessage_delivery (users : List SocketUser) (h : Reachable users)
    (d : MessageData) (now : Nat) :
    (∀ r ∈ users, r.userId = d.receiverId →
      sendMessageHandler users d now =
        [⟨some r.socketId, .getMessage d.senderId d.content d.chatId now⟩])
    ∧ ((∀ r ∈ users, r.userId ≠ d.receiverId) →
      sendMessageHandler users d now = []) := by
  have hnd := reachable_userIds_nodup h
  constructor
  · intro r hrm hru
    have hg : getUser d.receiverId users = some r := hru ▸ getUser_mem hnd hrm
    simp [sendMessageHandler, hg]
  · intro hall
    have hg : getUser d.receiverId users = none := getUser_eq_none hall
    simp [sendMessageHandler, hg]

/-- C1 witness: concrete delivery to a registered receiver and concrete drop
for an unregistered receiver. -/
theorem sendMessage_delivery_witness :
    Reachable [⟨"r1", "c1"⟩]
    ∧ sendMessageHandler [⟨"r1", "c1"⟩] ⟨"s1", "r1", "ch", "hi"⟩ 5 =
        [⟨some "c1", .getMessage "s1" "hi" "ch" 5⟩]
    ∧ sendMessageHandler [⟨"r1", "c1"⟩] ⟨"s1", "nobody", "ch", "hi"⟩ 5 = [] := by
  have hreach : Reachable [⟨"r1", "c1"⟩] := ⟨[RegOp.add "r1" "c1"], by decide⟩
  refine ⟨hreach, ?_, ?_⟩
  · exact (sendMessage_delivery [⟨"r1", "c1"⟩] hreach ⟨"s1", "r1", "ch", "hi"⟩ 5).1
      ⟨"r1", "c1"⟩ (by decide) rfl
  · exact (sendMessage_delivery [⟨"r1", "c1"⟩] hreach ⟨"s1", "nobody", "ch", "hi"⟩ 5).2
      (by decide)

/-- C2 counterexample: the sequence `addUser("a","s"); addUser("b","s")`
(the same connection registering two userIds) is a register/unregister
sequence from the empty registry that ends with two records sharing the
connectionId `"s"`, so the claimed invariant fails as stated. -/
theorem connId_duplicate_after_two_adds :
    applyOps [RegOp.add "a" "s", RegOp.add "b" "s"] = [⟨"a", "s"⟩, ⟨"b", "s"⟩]
    ∧ ¬ (socketIds (applyOps [RegOp.add "a" "s", RegOp.add "b" "s"])).Nodup := by
  constructor
  · decide
  · decide

/-- C2 (amended): for every sequence of register/unregister calls from the
empty registry whose register calls carry pairwise distinct connectionIds,
the registry never contains two records with the same connectionId. -/
theorem registry_connIds_nodup_of_distinct_adds (ops : List RegOp)
    (h : (addSocketIds ops).Nodup) : (socketIds (applyOps ops)).Nodup :=
  socketIds_foldl_nodup ops [] (by simpa [socketIds])

/-- C2 (amended) witness: a concrete sequence with distinct add
connectionIds keeps the registry's connectionIds duplicate-free. -/
theorem registry_connIds_nodup_of_distinct_adds_witness :
    (addSocketIds [RegOp.add "a" "s1", RegOp.add "b" "s2", RegOp.remove "s1"]).Nodup
    ∧ (socketIds (applyOps [RegOp.add "a" "s1", RegOp.add "b" "s2",
        RegOp.remove "s1"])).Nodup :=
  ⟨by decide, registry_connIds_nodup_of_distinct_adds _ (by decide)⟩

/-- C3 counterexample: in the reachable state `[{u, c0}]`, after
`register(u, c1)` the lookup returns the stale record `{u, c0}`, not
`{u, c1}` as the claim states for every registry state. -/
theorem reregister_keeps_stale_connection :
    Reachable [⟨"u", "c0"⟩]
    ∧ getUser "u" (addUser "u" "c1" [⟨"u", "c0"⟩]) = some ⟨"u", "c0"⟩
    ∧ getUser "u" (addUser "u" "c1" [⟨"u", "c0"⟩]) ≠ some ⟨"u", "c1"⟩ := by
  refine ⟨⟨[RegOp.add "u" "c0"], by decide⟩, by decide, by decide⟩

/-- C3 (amended): if `lookup(u)` is absent beforehand, then immediately after
`register(u, c)` the lookup `lookup(u)` returns the record `{u, c}`. -/
theorem lookup_after_fresh_register (l : List SocketUser) (u c : String)
    (h : getUser u l = none) : getUser u (addUser u c l) = some ⟨u, c⟩ := by
  have hall : ∀ r ∈ l, ¬ (r.userId == u) = true := List.find?_eq_none.mp h
  have hany : l.any (fun v => v.userId == u) = false := by
    rw [Bool.eq_false_iff]
    intro hT
    rcases List.any_eq_true.mp hT with ⟨r, hr, hb⟩
    exact hall r hr hb
  unfold getUser at h ⊢
  unfold addUser
  rw [hany]
  simp [List.find?_append, h]

/-- C3 (amended) witness: fresh registration on the empty registry is looked
up as the inserted record. -/
theorem lookup_after_fresh_register_witness :
    getUser "u" ([] : List SocketUser) = none
    ∧ getUser "u" (addUser "u" "c" []) = some ⟨"u", "c"⟩ :=
  ⟨rfl, lookup_after_fresh_register [] "u" "c" rfl⟩

/-- C4: `register(u, c)` appends the record `{u, c}` when no record with
userId `u` is present, and leaves the registry entirely unchanged when one
is present. -/
theorem register_inserts_iff (l : List SocketUser) (u c : String) :
    ((¬ ∃ r ∈ l, r.userId = u) → addUser u c l = l ++ [⟨u, c⟩])
    ∧ ((∃ r ∈ l, r.userId = u) → addUser u c l = l) := by
  constructor
  · intro h
    have hany : l.any (fun v => v.userId == u) = false := by
      rw [Bool.eq_false_iff]
      intro hT
      rcases List.any_eq_true.mp hT with ⟨r, hr, hb⟩
      exact h ⟨r, hr, by simpa using hb⟩
    simp [addUser, hany]
  · rintro ⟨r, hr, hru⟩
    have hany : l.any (fun v => v.userId == u) = true :=
      List.any_eq_true.mpr ⟨r, hr, by simp [hru]⟩
    simp [addUser, hany]

/-- C4 witness: concrete append for a fresh userId and concrete no-op for an
already registered userId. -/
theorem register_inserts_iff_witness :
    addUser "b" "s2" [⟨"a", "s1"⟩] = [⟨"a", "s1"⟩] ++ [⟨"b", "s2"⟩]
    ∧ addUser "a" "s2" [⟨"a", "s1"⟩] = [⟨"a", "s1"⟩] := by
  constructor
  · exact (register_inserts_iff [⟨"a", "s1"⟩] "b" "s2").1 (by decide)
  · exact (register_inserts_iff [⟨"a", "s1"⟩] "a" "s2").2 ⟨⟨"a", "s1"⟩, by decide, rfl⟩

/-- C5: after any sequence of register/unregister calls from the empty
registry, at most one record per userId is present. -/
theorem registry_at_most_one_per_user (ops : List RegOp) (u : String) :
    ((applyOps ops).filter (fun r => r.userId == u)).length ≤ 1 := by
  have hnd : (userIds (applyOps ops)).Nodup :=
    userIds_foldl_nodup ops [] (by simp [userIds])
  have hcount : (userIds (applyOps ops)).count u ≤ 1 :=
    List.nodup_iff_count_le_one.mp hnd u
  calc ((applyOps ops).filter (fun r => r.userId == u)).length
      = (applyOps ops).countP (fun r => r.userId == u) :=
        (List.countP_eq_length_filter _ _).symm
    _ = (applyOps ops).countP ((fun x => x == u) ∘ SocketUser.userId) := rfl
    _ = (userIds (applyOps ops)).countP (fun x => x == u) :=
        (List.countP_map _ _ _).symm
    _ ≤ 1 := hcount

/-- C6: in any reachable registry state, after `unregister(c)` the lookup for
a user whose record had connectionId `c` returns absent. -/
theorem lookup_absent_after_unregister (l : List SocketUser) (h : Reachable l)
    (r : SocketUser) (hr : r ∈ l) (c : String) (hc : r.socketId = c) :
    getUser r.userId (removeUser c l) = none := by
  have hnd := reachable_userIds_nodup h
  apply getUser_eq_none
  intro x hx hxu
  have hxf := List.mem_filter.mp hx
  have hxr : x = r := mem_userId_inj hnd hxf.1 hr hxu
  have : (x.socketId != c) = true := hxf.2
  rw [hxr, hc] at this
  simp at this

/-- C6 witness: concrete unregister of the only connection makes the user's
lookup absent. -/
theorem lookup_absent_after_unregister_witness :
    Reachable [⟨"a", "s1"⟩]
    ∧ getUser "a" (removeUser "s1" [⟨"a", "s1"⟩]) = none := by
  have hreach : Reachable [⟨"a", "s1"⟩] := ⟨[RegOp.add "a" "s1"], by decide⟩
  exact ⟨hreach,
    lookup_absent_after_unregister [⟨"a", "s1"⟩] hreach ⟨"a", "s1"⟩ (by decide) "s1" rfl⟩

/-- C7 counterexample: in the reachable state `[{a, s}, {b, s}]` (one
connection `s` registered under two userIds), the `typing` event named by
user `a` emits a `userTyping` notification to connection `s`, which is
user `a`'s own connection — so "emits nothing to u's connection" fails as
stated for every registry state. -/
theorem typing_notifies_sender_connection :
    Reachable [⟨"a", "s"⟩, ⟨"b", "s"⟩]
    ∧ (⟨"a", "s"⟩ : SocketUser) ∈ [(⟨"a", "s"⟩ : SocketUser), ⟨"b", "s"⟩]
    ∧ (typingHandler [⟨"a", "s"⟩, ⟨"b", "s"⟩] ⟨"c1", "a"⟩).filter
        (fun e => e.target == some "s") = [⟨some "s", .userTyping "c1" "a"⟩] := by
  refine ⟨⟨[RegOp.add "a" "s", RegOp.add "b" "s"], by decide⟩, by decide, by decide⟩

/-- C7 (amended): in every registry state in which no two records share a
connectionId, handling `typing` / `stopTyping` / `markAsRead` naming user
`u` delivers exactly one corresponding notification, with the payload's
fields, to the connection of every registered user other than `u`, delivers
nothing to `u`'s connection, and emits nothing at all when every registered
user is `u`. -/
theorem broadcast_except_sender (users : List SocketUser)
    (hnd : (socketIds users).Nodup) (t : TypingData) (rr : ReadReceiptData) :
    (∀ r ∈ users, (typingHandler users t).filter (fun e => e.target == some r.socketId) =
        if r.userId = t.userId then []
        else [⟨some r.socketId, .userTyping t.chatId t.userId⟩])
    ∧ (∀ r ∈ users, (stopTypingHandler users t).filter
          (fun e => e.target == some r.socketId) =
        if r.userId = t.userId then []
        else [⟨some r.socketId, .userStoppedTyping t.chatId t.userId⟩])
    ∧ (∀ r ∈ users, (markAsReadHandler users rr).filter
          (fun e => e.target == some r.socketId) =
        if r.userId = rr.userId then []
        else [⟨some r.socketId, .messagesRead rr.chatId rr.userId rr.messageIds⟩])
    ∧ ((∀ r ∈ users, r.userId = t.userId) →
        typingHandler users t = [] ∧ stopTypingHandler users t = [])
    ∧ ((∀ r ∈ users, r.userId = rr.userId) → markAsReadHandler users rr = []) := by
  have hnil : ∀ (x : String), (∀ r ∈ users, r.userId = x) →
      users.filter (fun v => v.userId != x) = [] := by
    intro x hall
    apply List.filter_eq_nil_iff.mpr
    intro v hv
    simp [hall v hv]
  refine ⟨?_, ?_, ?_, ?_, ?_⟩
  · intro r hr
    exact broadcast_filter_target
      (fun p => ⟨some p.socketId, .userTyping t.chatId t.userId⟩)
      (fun v => rfl) t.userId users hnd r hr
  · intro r hr
    exact broadcast_filter_target
      (fun p => ⟨some p.socketId, .userStoppedTyping t.chatId t.userId⟩)
      (fun v => rfl) t.userId users hnd r hr
  · intro r hr
    exact broadcast_filter_target
      (fun p => ⟨some p.socketId, .messagesRead rr.chatId rr.userId rr.messageIds⟩)
      (fun v => rfl) rr.userId users hnd r hr
  · intro hall
    constructor
    · simp [typingHandler, hnil t.userId hall]
    · simp [stopTypingHandler, hnil t.userId hall]
  · intro hall
    simp [markAsReadHandler, hnil rr.userId hall]

/-- C7 (amended) witness: with users a/s1 and b/s2 registered, a `typing`
event by `a` reaches `b`'s connection exactly once and `a`'s connection not
at all. -/
theorem broadcast_except_sender_witness :
    (socketIds [⟨"a", "s1"⟩, ⟨"b", "s2"⟩]).Nodup
    ∧ (typingHandler [⟨"a", "s1"⟩, ⟨"b", "s2"⟩] ⟨"c1", "a"⟩).filter
        (fun e => e.target == some "s2") = [⟨some "s2", .userTyping "c1" "a"⟩]
    ∧ (typingHandler [⟨"a", "s1"⟩, ⟨"b", "s2"⟩] ⟨"c1", "a"⟩).filter
        (fun e => e.target == some "s1") = [] := by
  have hnd : (socketIds [⟨"a", "s1"⟩, ⟨"b", "s2"⟩]).Nodup := by decide
  have h := broadcast_except_sender [⟨"a", "s1"⟩, ⟨"b", "s2"⟩] hnd ⟨"c1", "a"⟩
    ⟨"c1", "a", ["m1"]⟩
  refine ⟨hnd, ?_, ?_⟩
  · have h2 := h.1 ⟨"b", "s2"⟩ (by decide)
    rw [if_neg (by decide)] at h2
    exact h2
  · have h2 := h.1 ⟨"a", "s1"⟩ (by decide)
    rw [if_pos rfl] at h2
    exact h2

/-- C8: assuming the verifier rejects the empty string (as any JWT verifier
does), a handshake is admitted iff its payload carries a token that
verifies and whose decoded id resolves to an existing user; a missing
token, a failed verification, or an unknown user each yield a rejection
with a reason and never an admission; on success the resolved identity is
the one attached to the session context. -/
theorem auth_gate {U : Type} (verify : String → Option DecodedToken)
    (findById : String → Option U) (hv : verify "" = none) (tok : Option String) :
    ((∃ u, authMiddleware verify findById tok = .admitted u) ↔
      (∃ t d u, tok = some t ∧ verify t = some d ∧ findById d.id = some u))
    ∧ (tok = none →
        authMiddleware verify findById tok =
          .rejected "Authentication error: Token not provided")
    ∧ (∀ t, tok = some t → verify t = none →
        ∃ msg, authMiddleware verify findById tok = .rejected msg)
    ∧ (∀ t d, tok = some t → verify t = some d → findById d.id = none →
        ∃ msg, authMiddleware verify findById tok = .rejected msg)
    ∧ (∀ t d u, tok = some t → verify t = some d → findById d.id = some u →
        authMiddleware verify findById tok = .admitted u) := by
  cases tok with
  | none =>
    refine ⟨⟨?_, ?_⟩, fun _ => rfl, ?_, ?_, ?_⟩
    · rintro ⟨u, hu⟩
      exact absurd hu (by simp [authMiddleware])
    · rintro ⟨t, d, u, ht, _⟩
      cases ht
    · intro t ht
      cases ht
    · intro t d ht
      cases ht
    · intro t d u ht
      cases ht
  | some t =>
    by_cases ht : t = ""
    · subst ht
      have hred : authMiddleware verify findById (some "") =
          .rejected "Authentication error: Token not provided" := by
        simp [authMiddleware]
      refine ⟨⟨?_, ?_⟩, ?_, ?_, ?_, ?_⟩
      · rintro ⟨u, hu⟩
        rw [hred] at hu
        cases hu
      · rintro ⟨t2, d, u, ht2, hv2, hf⟩
        cases ht2
        rw [hv] at hv2
        cases hv2
      · intro h2
        cases h2
      · intro t2 ht2 hv2
        cases ht2
        exact ⟨_, hred⟩
      · intro t2 d ht2 hv2 hf
        cases ht2
        rw [hv] at hv2
        cases hv2
      · intro t2 d u ht2 hv2 hf
        cases ht2
        rw [hv] at hv2
        cases hv2
    · have hstep : authMiddleware verify findById (some t) =
          (match verify t with
           | none => AuthOutcome.rejected "Authentication error: Invalid token"
           | some d =>
             match findById d.id with
             | none => AuthOutcome.rejected "Authentication error: User not found"
             | some u => AuthOutcome.admitted u) := by
        simp [authMiddleware, ht]
      cases hv2 : verify t with
      | none =>
        rw [hv2] at hstep
        refine ⟨⟨?_, ?_⟩, ?_, ?_, ?_, ?_⟩
        · rintro ⟨u, hu⟩
          rw [hstep] at hu
          cases hu
        · rintro ⟨t2, d, u, ht2, hv3, hf⟩
          cases ht2
          rw [hv2] at hv3
          cases hv3
        · intro h2
          cases h2
        · intro t2 ht2 _
          cases ht2
          exact ⟨_, hstep⟩
        · intro t2 d ht2 hv3 hf
          cases ht2
          rw [hv2] at hv3
          cases hv3
        · intro t2 d u ht2 hv3 hf
          cases ht2
          rw [hv2] at hv3
          cases hv3
      | some d =>
        rw [hv2] at hstep
        dsimp only at hstep
        cases hf2 : findById d.id with
        | none =>
          rw [hf2] at hstep
          refine ⟨⟨?_, ?_⟩, ?_, ?_, ?_, ?_⟩
          · rintro ⟨u, hu⟩
            rw [hstep] at hu
            cases hu
          · rintro ⟨t2, d2, u, ht2, hv3, hf3⟩
            cases ht2
            rw [hv2] at hv3
            cases hv3
            rw [hf2] at hf3
            cases hf3
          · intro h2
            cases h2
          · intro t2 ht2 hv3
            cases ht2
            rw [hv2] at hv3
            cases hv3
          · intro t2 d2 ht2 hv3 hf3
            cases ht2
            exact ⟨_, hstep⟩
          · intro t2 d2 u ht2 hv3 hf3
            cases ht2
            rw [hv2] at hv3
            cases hv3
            rw [hf2] at hf3
            cases hf3
        | some u0 =>
          rw [hf2] at hstep
          refine ⟨⟨?_, ?_⟩, ?_, ?_, ?_, ?_⟩
          · intro _
            exact ⟨t, d, u0, rfl, hv2, hf2⟩
          · intro _
            exact ⟨u0, hstep⟩
          · intro h2
            cases h2
          · intro t2 ht2 hv3
            cases ht2
            rw [hv2] at hv3
            cases hv3
          · intro t2 d2 ht2 hv3 hf3
            cases ht2
            rw [hv2] at hv3
            cases hv3
            rw [hf2] at hf3
            cases hf3
          · intro t2 d2 u ht2 hv3 hf3
            cases ht2
            rw [hv2] at hv3
            cases hv3
            rw [hf2] at hf3
            cases hf3
            rw [hstep]

/-- C8 witness: with the sample verifier and user store, a valid token is
admitted as the resolved user and a missing token is rejected with the
reason string from the source. -/
theorem auth_gate_witness :
    demoVerify "" = none
    ∧ authMiddleware demoVerify demoFindById (some "jwt-ok") =
        AuthOutcome.admitted "alice"
    ∧ authMiddleware demoVerify demoFindById none =
        AuthOutcome.rejected "Authentication error: Token not provided" := by
  have hv : demoVerify "" = none := by decide
  refine ⟨hv, ?_, ?_⟩
  · exact (auth_gate demoVerify demoFindById hv (some "jwt-ok")).2.2.2.2 "jwt-ok"
      ⟨"u1"⟩ "alice" rfl (by decide) (by decide)
  · exact (auth_gate demoVerify demoFindById hv none).2.1 rfl

/-- C9: the `sendMessage`, `typing`, `stopTyping` and `markAsRead` handlers
leave the registry unchanged; only the `addUser` and `disconnect` handlers
write it, via `addUser` and `removeUser`. -/
theorem handlers_preserve_registry (ctx : SocketCtx) (users : List SocketUser)
    (u : String) (m : MessageData) (now : Nat) (t : TypingData) (rr : ReadReceiptData) :
    (handle ctx users (.sendMessage m now)).1 = users
    ∧ (handle ctx users (.typing t)).1 = users
    ∧ (handle ctx users (.stopTyping t)).1 = users
    ∧ (handle ctx users (.markAsRead rr)).1 = users
    ∧ (handle ctx users (.addUser u)).1 = addUser u ctx.id users
    ∧ (handle ctx users .disconnect).1 = removeUser ctx.id users :=
  ⟨rfl, rfl, rfl, rfl, rfl, rfl⟩

/-- C10: for `sendMessage`, `typing`, `stopTyping` and `markAsRead`, the
emissions of a step depend only on the event payload and the registry, not
on the authenticated identity attached to the connection's session context:
two contexts sharing a socket id but carrying different identities produce
identical emissions. -/
theorem emissions_independent_of_identity (i u₁ u₂ : String)
    (users : List SocketUser) (m : MessageData) (now : Nat) (t : TypingData)
    (rr : ReadReceiptData) :
    (handle ⟨i, u₁⟩ users (.sendMessage m now)).2 =
        (handle ⟨i, u₂⟩ users (.sendMessage m now)).2
    ∧ (handle ⟨i, u₁⟩ users (.typing t)).2 = (handle ⟨i, u₂⟩ users (.typing t)).2
    ∧ (handle ⟨i, u₁⟩ users (.stopTyping t)).2 = (handle ⟨i, u₂⟩ users (.stopTyping t)).2
    ∧ (handle ⟨i, u₁⟩ users (.markAsRead rr)).2 = (handle ⟨i, u₂⟩ users (.markAsRead rr)).2 :=
  ⟨rfl, rfl, rfl, rfl⟩

end Websocket
